import Mathlib

/-!
Verification of the Azure DevOps work-item attachment tools.

A shallow embedding of `mcp_azure_devops/features/work_items/tools/attachments.py`.
Python strings are Lean `String`s; the string operations the module uses
(`in`, `split`, `replace`, `os.path.basename`, `os.path.join`, `startswith`)
are embedded as structurally recursive functions over `List Char`.
The Azure DevOps SDK client and the filesystem are modelled as an explicit
environment record; exceptions become `Except String` with the
`AzureDevOpsClientError` message as the error payload.
-/

set_option maxRecDepth 4000

namespace Attachments

/-- Byte strings are modelled as lists of naturals. -/
abbrev Bytes := List Nat

/-- Decidable equality on `Except`, used to evaluate the embedded
operations on concrete inputs. -/
instance {e a : Type} [DecidableEq e] [DecidableEq a] : DecidableEq (Except e a)
  | .ok x, .ok y =>
    if h : x = y then .isTrue (by rw [h])
    else .isFalse (by intro hc; injection hc; contradiction)
  | .ok x, .error y => .isFalse (by intro hc; injection hc)
  | .error x, .ok y => .isFalse (by intro hc; injection hc)
  | .error x, .error y =>
    if h : x = y then .isTrue (by rw [h])
    else .isFalse (by intro hc; injection hc; contradiction)

/-! ## Char-list primitives for the Python string operations -/

/-- Boolean list-prefix test over characters. -/
def isPrefixOfB : List Char → List Char → Bool
  | [], _ => true
  | _ :: _, [] => false
  | a :: as, b :: bs => a == b && isPrefixOfB as bs

/-- Boolean substring (contiguous sublist) test over characters. -/
def isInfixOfB (sub : List Char) : List Char → Bool
  | [] => isPrefixOfB sub []
  | c :: rest => isPrefixOfB sub (c :: rest) || isInfixOfB sub rest

/-- Python's `sub in s` membership test on strings. -/
def pyIn (sub s : String) : Bool := isInfixOfB sub.data s.data

/-- Python's `s.startswith(pre)`. -/
def pyStartsWith (s pre : String) : Bool := isPrefixOfB pre.data s.data

/-- Python's single-character `str.split`: splits on every occurrence of
`sep`, always returning at least one (possibly empty) component. -/
def splitChar (sep : Char) : List Char → List (List Char)
  | [] => [[]]
  | c :: rest =>
    match splitChar sep rest with
    | [] => [[]]
    | h :: t => if c == sep then [] :: h :: t else (c :: h) :: t

/-- Python's `s.replace("\\", "/")`: single-character global replacement. -/
def replaceBackslash (l : List Char) : List Char :=
  l.map fun c => if c == '\\' then '/' else c

/-- `os.path.basename` on POSIX: everything after the last `/`. -/
def posixBasename (p : String) : String :=
  String.mk ((splitChar '/' p.data).getLastD [])

/-- Two-argument `os.path.join` on POSIX. -/
def osPathJoin (a b : String) : String :=
  if pyStartsWith b "/" then b
  else if a.data.isEmpty || (a.data.getLastD ' ') == '/' then a ++ b
  else a ++ "/" ++ b

/-! ## Path classification and filename extraction (attachments.py) -/

/-- The module's Windows-path test:
`"\\" in p or (":" in p and len(p.split(":")[0]) == 1)`. -/
def isWindowsPath (p : String) : Bool :=
  pyIn "\\" p || (pyIn ":" p && ((splitChar ':' p.data).headD []).length == 1)

/-- Filename extraction used in the Windows branch:
`p.replace("\\", "/").split("/")[-1]`. -/
def winFilename (p : String) : String :=
  String.mk ((splitChar '/' (replaceBackslash p.data)).getLastD [])

/-- The download handler's filename extraction: Windows branch takes the
last `/`-component of the backslash-normalized path, otherwise
`os.path.basename`. -/
def extractFilename (p : String) : String :=
  if isWindowsPath p then winFilename p else posixBasename p

/-- The last path component of `p` after normalizing backslashes to
slashes; the branch-free description of `extractFilename`. -/
def filenameComponent (p : String) : String :=
  String.mk ((splitChar '/' (replaceBackslash p.data)).getLastD [])

/-! ## Data model: SDK objects and the environment -/

/-- The attributes dictionary of a work-item relation; the module reads
`name`, `contentType` and writes `name`, `comment`. -/
structure RelAttributes where
  name : Option String
  contentType : Option String
  comment : Option String
deriving DecidableEq, Repr

/-- A work-item relation as returned by `get_work_item(expand="relations")`. -/
structure Relation where
  rel : String
  url : String
  attributes : RelAttributes
deriving DecidableEq, Repr

/-- A work item: its relation list (`None` when not present) and its
revision counter. -/
structure WorkItem where
  relations : Option (List Relation)
  rev : Nat
deriving DecidableEq, Repr

/-- The object returned by `create_attachment`. -/
structure AttachmentRef where
  id : String
  url : String
deriving DecidableEq, Repr

/-- The external world: the Azure DevOps work-item-tracking client and the
container filesystem, treated as oracles.
`workItems` is `get_work_item`, `attachmentContent` is
`get_attachment_content` (a sequence of byte chunks), `fsExists` is
`os.path.exists`, `fsRead` is the content at a path (its length is
`os.path.getsize`), `createAttachment` maps a file name and content to the
created attachment reference, and `mimeGuess` is `mimetypes.guess_type`. -/
structure Env where
  workItems : Nat → Option WorkItem
  attachmentContent : String → List Bytes
  fsExists : String → Bool
  fsRead : String → Bytes
  createAttachment : String → Bytes → AttachmentRef
  mimeGuess : String → Option String

/-! ## `_get_attachment_info_from_work_item` -/

/-- The dictionary returned by `_get_attachment_info_from_work_item`. -/
structure AttachmentInfo where
  name : String
  url : String
  attributes : RelAttributes
deriving DecidableEq, Repr

/-- The relation-scanning loop: the first relation whose `rel` is
`"AttachedFile"` and whose `url` contains `attachmentId` as a substring. -/
def findAttachedRelation (attachmentId : String) : List Relation → Option Relation
  | [] => none
  | r :: rest =>
    if r.rel == "AttachedFile" && pyIn attachmentId r.url then some r
    else findAttachedRelation attachmentId rest

/-- `_get_attachment_info_from_work_item`: resolve the attachment relation
on a work item; every failure is wrapped into
`"Error getting attachment information: ..."`. -/
def getAttachmentInfo (env : Env) (workItemId : Nat) (attachmentId : String) :
    Except String AttachmentInfo :=
  let inner : Except String AttachmentInfo :=
    match env.workItems workItemId with
    | none => .error ("No attachments found in work item " ++ toString workItemId)
    | some workItem =>
      match workItem.relations with
      | none => .error ("No attachments found in work item " ++ toString workItemId)
      | some relations =>
        if relations.isEmpty then
          .error ("No attachments found in work item " ++ toString workItemId)
        else
          match findAttachedRelation attachmentId relations with
          | some r =>
            .ok { name := posixBasename (r.attributes.name.getD ""),
                  url := r.url, attributes := r.attributes }
          | none =>
            .error ("Attachment " ++ attachmentId ++ " not found in work item "
              ++ toString workItemId)
  match inner with
  | .ok v => .ok v
  | .error m => .error ("Error getting attachment information: " ++ m)

/-! ## `_download_attachment_impl` -/

/-- The dictionary returned by `_download_attachment_impl`. -/
structure DownloadResult where
  filename : String
  size : Nat
  contentType : String
  savedTo : String
deriving DecidableEq, Repr

/-- The single file write performed by a download. -/
structure FileWrite where
  path : String
  bytes : Bytes
deriving DecidableEq, Repr

/-- The chunk-writing loop: appends each chunk to the file and adds its
length to the running total. -/
def writeChunksLoop : List Bytes → Bytes → Nat → Bytes × Nat
  | [], acc, total => (acc, total)
  | chunk :: rest, acc, total => writeChunksLoop rest (acc ++ chunk) (total + chunk.length)

/-- `_download_attachment_impl`: resolve the relation, pick the save path
inside `/downloads`, stream the chunks to it; every failure is wrapped into
`"Error downloading attachment ..."`. -/
def downloadImpl (env : Env) (workItemId : Nat) (attachmentId outputPath : String) :
    Except String (DownloadResult × FileWrite) :=
  let inner : Except String (DownloadResult × FileWrite) :=
    match getAttachmentInfo env workItemId attachmentId with
    | .error m => .error m
    | .ok info =>
      let chunks := env.attachmentContent attachmentId
      let filename := extractFilename outputPath
      let finalPath := osPathJoin "/downloads" filename
      let written := writeChunksLoop chunks [] 0
      .ok ({ filename := info.name, size := written.2,
             contentType := info.attributes.contentType.getD "application/octet-stream",
             savedTo := finalPath },
           { path := finalPath, bytes := written.1 })
  match inner with
  | .ok v => .ok v
  | .error m =>
    .error ("Error downloading attachment " ++ attachmentId ++ " from work item "
      ++ toString workItemId ++ ": " ++ m)

/-! ## `_upload_attachment_impl`: the file locator -/

/-- The not-found message that lists the probed container directories. -/
def notFoundMsg (p : String) : String :=
  "File not found: " ++ p ++ ". Please ensure the file is available in the "
    ++ "container in one of these directories: /downloads, /uploads, or /tmp."

/-- The probing loop over candidate locations: first path that exists. -/
def findFirstExisting (ex : String → Bool) : List String → Option String
  | [] => none
  | loc :: rest => if ex loc then some loc else findFirstExisting ex rest

/-- Candidate locations probed in the Windows branch. -/
def winCandidates (p : String) : List String :=
  [osPathJoin "/downloads" (winFilename p),
   osPathJoin "/uploads" (winFilename p),
   osPathJoin "/tmp" (winFilename p)]

/-- Candidate locations probed for a non-existing absolute path outside
the known prefixes. -/
def absCandidates (p : String) : List String :=
  [osPathJoin "/downloads" (posixBasename p),
   osPathJoin "/uploads" (posixBasename p),
   osPathJoin "/tmp" (posixBasename p)]

/-- Candidate locations probed in the relative-path branch: the three
directories joined with the whole given path, then the path as-is. -/
def relCandidates (p : String) : List String :=
  [osPathJoin "/downloads" p, osPathJoin "/uploads" p, osPathJoin "/tmp" p, p]

/-- `file_path.startswith(("/downloads/", "/uploads/", "/tmp/"))`. -/
def startsWithKnownPrefix (p : String) : Bool :=
  pyStartsWith p "/downloads/" || pyStartsWith p "/uploads/" || pyStartsWith p "/tmp/"

/-- The host-to-container path translation at the top of
`_upload_attachment_impl`: resolve the user-supplied path to an existing
container path, or fail with a file-not-found error. -/
def locateContainerPath (ex : String → Bool) (filePath : String) : Except String String :=
  if isWindowsPath filePath then
    match findFirstExisting ex (winCandidates filePath) with
    | some loc => .ok loc
    | none => .error (notFoundMsg filePath)
  else if pyStartsWith filePath "/" then
    if ex filePath then .ok filePath
    else if !startsWithKnownPrefix filePath then
      match findFirstExisting ex (absCandidates filePath) with
      | some loc => .ok loc
      | none => .error (notFoundMsg filePath)
    else .error ("File not found: " ++ filePath)
  else
    match findFirstExisting ex (relCandidates filePath) with
    | some loc => .ok loc
    | none => .error (notFoundMsg filePath)

/-- The dictionary returned by `_upload_attachment_impl`. -/
structure UploadResult where
  id : String
  url : String
  name : String
  size : Nat
  contentType : String
  originalPath : String
  containerPath : String
  comment : Option String
deriving DecidableEq, Repr

/-- Python truthiness of an optional string: `None` and `""` are falsy. -/
def strTruthy : Option String → Bool
  | none => false
  | some s => !s.data.isEmpty

/-- `_upload_attachment_impl`: locate the file, pick the attachment name,
guess the content type, create the attachment; every failure is wrapped
into `"Error uploading attachment ..."`. -/
def uploadImpl (env : Env) (filePath : String) (fileName comment : Option String) :
    Except String UploadResult :=
  let inner : Except String UploadResult :=
    match locateContainerPath env.fsExists filePath with
    | .error m => .error m
    | .ok containerPath =>
      let name := if strTruthy fileName then fileName.getD "" else posixBasename filePath
      let contentType := (env.mimeGuess name).getD "application/octet-stream"
      let attachment := env.createAttachment name (env.fsRead containerPath)
      .ok { id := attachment.id, url := attachment.url, name := name,
            size := (env.fsRead containerPath).length, contentType := contentType,
            originalPath := filePath, containerPath := containerPath,
            comment := comment }
  match inner with
  | .ok v => .ok v
  | .error m => .error ("Error uploading attachment " ++ filePath ++ ": " ++ m)

/-! ## `_attach_file_to_work_item_impl` and the server's patch semantics -/

/-- The `value` object of the JSON patch operation built by the module. -/
structure PatchValue where
  rel : String
  url : String
  name : String
  comment : String
deriving DecidableEq, Repr

/-- One JSON patch operation. -/
structure PatchOp where
  op : String
  path : String
  value : PatchValue
deriving DecidableEq, Repr

/-- The patch document `_attach_file_to_work_item_impl` builds: a single
add of an `AttachedFile` relation. -/
def mkPatchDocument (attachmentId attachmentName : String) (comment : Option String) :
    List PatchOp :=
  [{ op := "add", path := "/relations/-",
     value := { rel := "AttachedFile", url := attachmentId,
                name := attachmentName,
                comment := if strTruthy comment then comment.getD "" else "" } }]

/-- Modelled from the spec: the external tracking service applies an add
operation targeting the end of the relations list by appending the given
relation to the work item's relation list. -/
def applyPatchOp (wi : WorkItem) (p : PatchOp) : WorkItem :=
  if p.op == "add" && p.path == "/relations/-" then
    { wi with relations := some ((wi.relations.getD []) ++
        [{ rel := p.value.rel, url := p.value.url,
           attributes := { name := some p.value.name, contentType := none,
                           comment := some p.value.comment } }]) }
  else wi

/-- Modelled from the spec: `update_work_item` applies the patch document
and the revision counter increases on each work item update. -/
def updateWorkItem (wi : WorkItem) (doc : List PatchOp) : WorkItem :=
  { doc.foldl applyPatchOp wi with rev := wi.rev + 1 }

/-- The dictionary returned by `_attach_file_to_work_item_impl`. -/
structure AttachResult where
  workItemId : Nat
  attachmentId : String
  attachmentName : String
  comment : String
  updatedWorkItemRev : Nat
deriving DecidableEq, Repr

/-- `_attach_file_to_work_item_impl`: verify the work item exists, issue
the patch, return the updated revision; failures are wrapped into
`"Error attaching file to work item ..."`. The updated work item is
returned alongside the result dictionary. -/
def attachFileImpl (env : Env) (workItemId : Nat) (attachmentId attachmentName : String)
    (comment : Option String) : Except String (AttachResult × WorkItem) :=
  let inner : Except String (AttachResult × WorkItem) :=
    match env.workItems workItemId with
    | none => .error ("Work item " ++ toString workItemId ++ " not found")
    | some wi =>
      let doc := mkPatchDocument attachmentId attachmentName comment
      let updated := updateWorkItem wi doc
      .ok ({ workItemId := workItemId, attachmentId := attachmentId,
             attachmentName := attachmentName,
             comment := if strTruthy comment then comment.getD "" else "",
             updatedWorkItemRev := updated.rev }, updated)
  match inner with
  | .ok v => .ok v
  | .error m =>
    .error ("Error attaching file to work item " ++ toString workItemId ++ ": " ++ m)

/-! ## The registered tools -/

/-- The success text of `download_work_item_attachment`. -/
def formatDownloadResponse (r : DownloadResult) : String :=
  String.intercalate "\n"
    ["# Attachment Downloaded Successfully",
     "Filename: " ++ r.filename,
     "Size: " ++ toString r.size ++ " bytes",
     "Content Type: " ++ r.contentType,
     "Saved to: " ++ r.savedTo,
     "",
     "The file is now available for viewing or processing."]

/-- The `download_work_item_attachment` tool: runs the implementation and
converts any `AzureDevOpsClientError` into an `Error:`-prefixed result
text. -/
def downloadTool (env : Env) (workItemId : Nat) (attachmentId outputPath : String) :
    String :=
  match downloadImpl env workItemId attachmentId outputPath with
  | .ok (r, _) => formatDownloadResponse r
  | .error m => "Error: " ++ m

/-- The success text of `upload_attachment_to_work_item`. -/
def formatUploadResponse (workItemId : Nat) (up : UploadResult)
    (comment : Option String) : String :=
  String.intercalate "\n"
    (["# File Attached Successfully to Work Item " ++ toString workItemId,
      "Filename: " ++ up.name,
      "Size: " ++ toString up.size ++ " bytes",
      "Content Type: " ++ up.contentType,
      "File location in container: " ++ up.containerPath]
     ++ (if strTruthy comment then ["Comment: " ++ comment.getD ""] else [])
     ++ ["", "The file has been uploaded and attached to the work item."])

/-- The `upload_attachment_to_work_item` tool: upload, then attach using
the upload's `url` as the attachment id; any `AzureDevOpsClientError`
becomes an `Error:`-prefixed result text. -/
def uploadTool (env : Env) (workItemId : Nat) (filePath : String)
    (fileName comment : Option String) : String :=
  match uploadImpl env filePath fileName comment with
  | .error m => "Error: " ++ m
  | .ok up =>
    match attachFileImpl env workItemId up.url up.name comment with
    | .error m => "Error: " ++ m
    | .ok _ => formatUploadResponse workItemId up comment

/-! ## Helper lemmas: string primitives -/

/-- `isPrefixOfB` decides the prefix relation. -/
theorem isPrefixOfB_iff : ∀ (a b : List Char), isPrefixOfB a b = true ↔ a <+: b
  | [], b => by simp [isPrefixOfB, List.nil_prefix]
  | x :: xs, [] => by simp [isPrefixOfB]
  | x :: xs, y :: ys => by
    simp only [isPrefixOfB, Bool.and_eq_true, beq_iff_eq, List.cons_prefix_cons]
    exact and_congr Iff.rfl (isPrefixOfB_iff xs ys)

/-- `isInfixOfB` decides the infix (substring) relation. -/
theorem isInfixOfB_iff (sub : List Char) : ∀ (l : List Char),
    isInfixOfB sub l = true ↔ sub <:+: l
  | [] => by simp [isInfixOfB, isPrefixOfB_iff, List.infix_nil, List.prefix_nil]
  | c :: rest => by
    simp only [isInfixOfB, Bool.or_eq_true, isPrefixOfB_iff, List.infix_cons_iff]
    exact or_congr Iff.rfl (isInfixOfB_iff sub rest)

/-- Python's `in` test decides substring containment on the char lists. -/
theorem pyIn_iff (sub s : String) : pyIn sub s = true ↔ sub.data <:+: s.data :=
  isInfixOfB_iff sub.data s.data

/-- `sub` occurs contiguously inside `s`. -/
def ContainsStr (s sub : String) : Prop := ∃ pre post, s = pre ++ sub ++ post

/-- Substring containment on strings is infix containment on the data. -/
theorem ContainsStr_iff (s sub : String) : ContainsStr s sub ↔ sub.data <:+: s.data := by
  constructor
  · rintro ⟨pre, post, rfl⟩
    exact ⟨pre.data, post.data, by simp [String.data_append]⟩
  · rintro ⟨u, v, huv⟩
    refine ⟨String.mk u, String.mk v, String.ext ?_⟩
    simp [String.data_append, ← huv]

/-- A single-character substring test is membership. -/
theorem isInfixOfB_singleton_iff (c : Char) (l : List Char) :
    isInfixOfB [c] l = true ↔ c ∈ l := by
  rw [isInfixOfB_iff]
  constructor
  · rintro ⟨u, v, rfl⟩; simp
  · intro hm
    obtain ⟨u, v, rfl⟩ := List.append_of_mem hm
    exact ⟨u, v, by simp⟩

/-! ## Helper lemmas: `splitChar` and path components -/

/-- `splitChar` always yields at least one component. -/
theorem splitChar_ne_nil (sep : Char) : ∀ (l : List Char), splitChar sep l ≠ []
  | [] => by simp [splitChar]
  | c :: rest => by
    simp only [splitChar]
    cases hs : splitChar sep rest with
    | nil => simp
    | cons h t => dsimp only; split <;> simp

/-- The separator occurs in no component of `splitChar`. -/
theorem mem_splitChar_not_sep (sep : Char) :
    ∀ (l : List Char) (x : List Char), x ∈ splitChar sep l → sep ∉ x
  | [], x, hx => by
    simp [splitChar] at hx; simp [hx]
  | c :: rest, x, hx => by
    rw [splitChar] at hx
    cases hs : splitChar sep rest with
    | nil => exact absurd hs (splitChar_ne_nil sep rest)
    | cons h t =>
      rw [hs] at hx
      dsimp only at hx
      by_cases hc : (c == sep) = true
      · rw [if_pos hc] at hx
        rcases List.mem_cons.mp hx with hx | hx
        · simp [hx]
        · exact mem_splitChar_not_sep sep rest x (hs ▸ hx)
      · rw [if_neg hc] at hx
        rcases List.mem_cons.mp hx with hx | hx
        · subst hx
          intro hmem
          rcases List.mem_cons.mp hmem with hce | hh
          · exact hc (by simp [hce.symm])
          · exact mem_splitChar_not_sep sep rest h (hs ▸ List.mem_cons_self h t) hh
        · exact mem_splitChar_not_sep sep rest x (hs ▸ List.mem_cons_of_mem h hx)

/-- Every character of a `splitChar` component comes from the input. -/
theorem mem_splitChar_subset (sep : Char) :
    ∀ (l : List Char) (x : List Char), x ∈ splitChar sep l → ∀ ch ∈ x, ch ∈ l
  | [], x, hx => by
    simp [splitChar] at hx; simp [hx]
  | c :: rest, x, hx => by
    rw [splitChar] at hx
    cases hs : splitChar sep rest with
    | nil => exact absurd hs (splitChar_ne_nil sep rest)
    | cons h t =>
      rw [hs] at hx
      dsimp only at hx
      intro ch hch
      by_cases hc : (c == sep) = true
      · rw [if_pos hc] at hx
        rcases List.mem_cons.mp hx with hx | hx
        · simp [hx] at hch
        · exact List.mem_cons_of_mem c
            (mem_splitChar_subset sep rest x (hs ▸ hx) ch hch)
      · rw [if_neg hc] at hx
        rcases List.mem_cons.mp hx with hx | hx
        · subst hx
          rcases List.mem_cons.mp hch with hche | hchh
          · exact hche ▸ List.mem_cons_self c rest
          · exact List.mem_cons_of_mem c
              (mem_splitChar_subset sep rest h (hs ▸ List.mem_cons_self h t) ch hchh)
        · exact List.mem_cons_of_mem c
            (mem_splitChar_subset sep rest x (hs ▸ List.mem_cons_of_mem h hx) ch hch)

/-- The default-carrying last element of a nonempty list is a member. -/
theorem getLastD_mem {α : Type} (d : α) : ∀ (L : List α), L ≠ [] → L.getLastD d ∈ L
  | [], h => absurd rfl h
  | [a], _ => by simp [List.getLastD_cons]
  | a :: b :: L, _ => by
    rw [List.getLastD_cons]
    exact List.mem_cons_of_mem a (getLastD_mem a (b :: L) (by simp))

/-- Backslash normalization introduces no backslash. -/
theorem replaceBackslash_no_backslash (l : List Char) : '\\' ∉ replaceBackslash l := by
  intro hmem
  obtain ⟨c, _, hc⟩ := List.mem_map.mp hmem
  by_cases h : (c == '\\') = true
  · rw [if_pos h] at hc; exact absurd hc (by decide)
  · rw [if_neg h] at hc; exact h (by simp [hc])

/-- Backslash normalization is the identity on backslash-free input. -/
theorem replaceBackslash_id (l : List Char) (h : '\\' ∉ l) : replaceBackslash l = l := by
  induction l with
  | nil => rfl
  | cons c rest ih =>
    have hc : ¬(c == '\\') = true := by
      simp only [beq_iff_eq]
      intro hc; exact h (hc ▸ List.mem_cons_self c rest)
    simp only [replaceBackslash, List.map_cons, if_neg hc]
    exact congrArg (c :: ·) (ih fun hm => h (List.mem_cons_of_mem c hm))

/-- A path the Windows test rejects contains no backslash. -/
theorem no_backslash_of_not_windows (p : String) (h : isWindowsPath p = false) :
    '\\' ∉ p.data := by
  have hin : pyIn "\\" p = false := by
    rcases Bool.or_eq_false_iff.mp (isWindowsPath.eq_def p ▸ h) with ⟨h1, _⟩
    exact h1
  intro hmem
  have : pyIn "\\" p = true := by
    have hd : ("\\" : String).data = ['\\'] := rfl
    unfold pyIn
    rw [hd]
    exact (isInfixOfB_singleton_iff '\\' p.data).mpr hmem
  rw [this] at hin; exact absurd hin (by decide)

/-- The two filename-extraction branches agree: both compute the last
slash component of the backslash-normalized path. -/
theorem extractFilename_eq (p : String) : extractFilename p = filenameComponent p := by
  unfold extractFilename winFilename filenameComponent posixBasename
  by_cases h : isWindowsPath p = true
  · rw [if_pos h]
  · rw [if_neg h]
    rw [replaceBackslash_id p.data
      (no_backslash_of_not_windows p (Bool.not_eq_true _ ▸ h))]

/-- The extracted filename component contains no slash. -/
theorem filenameComponent_no_slash (p : String) : '/' ∉ (filenameComponent p).data := by
  unfold filenameComponent
  show '/' ∉ (splitChar '/' (replaceBackslash p.data)).getLastD []
  exact mem_splitChar_not_sep '/' (replaceBackslash p.data) _
    (getLastD_mem [] _ (splitChar_ne_nil '/' _))

/-- The extracted filename component contains no backslash. -/
theorem filenameComponent_no_backslash (p : String) :
    '\\' ∉ (filenameComponent p).data := by
  unfold filenameComponent
  show '\\' ∉ (splitChar '/' (replaceBackslash p.data)).getLastD []
  intro hmem
  exact replaceBackslash_no_backslash p.data
    (mem_splitChar_subset '/' (replaceBackslash p.data) _
      (getLastD_mem [] _ (splitChar_ne_nil '/' _)) '\\' hmem)

/-- Joining `/downloads` with a slash-free component is plain concatenation. -/
theorem osPathJoin_downloads (fn : String) (h : '/' ∉ fn.data) :
    osPathJoin "/downloads" fn = "/downloads/" ++ fn := by
  have h1 : pyStartsWith fn "/" = false := by
    unfold pyStartsWith
    have hd : ("/" : String).data = ['/'] := rfl
    rw [hd]
    cases hfd : fn.data with
    | nil => rfl
    | cons c cs =>
      simp only [isPrefixOfB]
      have : ¬('/' == c) = true := by
        simp only [beq_iff_eq]
        intro hc; exact h (hfd ▸ (hc ▸ List.mem_cons_self c cs))
      simp [this]
  have h2 : (("/downloads" : String).data.isEmpty
      || (("/downloads" : String).data.getLastD ' ') == '/') = false := by decide
  unfold osPathJoin
  rw [h1, h2]
  simp only [Bool.false_eq_true, if_false]
  show "/downloads" ++ "/" ++ fn = "/downloads/" ++ fn
  rw [show ("/downloads" : String) ++ "/" = "/downloads/" from rfl]

/-- Splitting after the last separator ignores everything before it. -/
theorem splitChar_append_sep (sep : Char) (m : List Char) :
    ∀ l : List Char, ∃ h t, splitChar sep (l ++ sep :: m) = h :: t ∧ t ≠ [] ∧
      (h :: t).getLastD [] = (splitChar sep m).getLastD []
  | [] => by
    obtain ⟨h0, t0, ht0⟩ := List.exists_cons_of_ne_nil (splitChar_ne_nil sep m)
    refine ⟨[], h0 :: t0, ?_, by simp, ?_⟩
    · show splitChar sep (sep :: m) = [] :: h0 :: t0
      rw [splitChar, ht0]
      simp
    · rw [List.getLastD_cons, ht0]
  | c :: l => by
    obtain ⟨h, t, heq, hne, hlast⟩ := splitChar_append_sep sep m l
    by_cases hc : (c == sep) = true
    · refine ⟨[], h :: t, ?_, by simp, ?_⟩
      · show splitChar sep (c :: (l ++ sep :: m)) = [] :: h :: t
        rw [splitChar, heq]
        simp [hc]
      · rw [List.getLastD_cons, ← heq, heq, hlast]
    · obtain ⟨x, t', rfl⟩ := List.exists_cons_of_ne_nil hne
      refine ⟨c :: h, x :: t', ?_, by simp, ?_⟩
      · show splitChar sep (c :: (l ++ sep :: m)) = (c :: h) :: x :: t'
        rw [splitChar, heq]
        simp [hc]
      · rw [List.getLastD_cons, List.getLastD_cons] at hlast ⊢
        exact hlast

/-- The filename component of `a ++ "/" ++ b` is that of `b`: directory
components before the final separator do not matter. -/
theorem filenameComponent_append (a b : String) :
    filenameComponent (a ++ "/" ++ b) = filenameComponent b := by
  unfold filenameComponent
  have hdata : (a ++ "/" ++ b).data = a.data ++ '/' :: b.data := by
    rw [String.data_append, String.data_append,
      show ("/" : String).data = ['/'] from rfl, List.append_assoc]
    rfl
  rw [hdata]
  have hrepl : replaceBackslash (a.data ++ '/' :: b.data)
      = replaceBackslash a.data ++ '/' :: replaceBackslash b.data := by
    unfold replaceBackslash
    rw [List.map_append, List.map_cons]
    rfl
  rw [hrepl]
  obtain ⟨h, t, heq, _, hlast⟩ :=
    splitChar_append_sep '/' (replaceBackslash b.data) (replaceBackslash a.data)
  rw [heq, hlast]

/-! ## Helper lemmas: the probing and scanning loops -/

/-- The write loop concatenates the chunks and sums their lengths. -/
theorem writeChunksLoop_eq : ∀ (chunks : List Bytes) (acc : Bytes) (total : Nat),
    writeChunksLoop chunks acc total
      = (acc ++ chunks.flatten, total + (chunks.map List.length).sum)
  | [], acc, total => by simp [writeChunksLoop]
  | chunk :: rest, acc, total => by
    rw [writeChunksLoop, writeChunksLoop_eq rest]
    simp [List.append_assoc]
    omega

/-- `loc` is the first element of `ls` that the existence oracle accepts. -/
def FirstHit (ex : String → Bool) (ls : List String) (loc : String) : Prop :=
  ∃ pre post, ls = pre ++ loc :: post ∧ ex loc = true ∧ ∀ x ∈ pre, ex x = false

/-- The probing loop returns exactly the first existing candidate. -/
theorem findFirstExisting_eq_some_iff (ex : String → Bool) :
    ∀ (ls : List String) (loc : String),
      findFirstExisting ex ls = some loc ↔ FirstHit ex ls loc
  | [], loc => by
    constructor
    · intro h; exact absurd h (by simp [findFirstExisting])
    · rintro ⟨pre, post, hls, -, -⟩
      exact absurd hls (by simp)
  | a :: rest, loc => by
    constructor
    · intro h
      by_cases ha : ex a = true
      · rw [findFirstExisting, if_pos ha] at h
        obtain rfl : a = loc := by injection h
        exact ⟨[], rest, rfl, ha, by simp⟩
      · rw [findFirstExisting, if_neg ha] at h
        obtain ⟨pre, post, hls, hloc, hpre⟩ :=
          (findFirstExisting_eq_some_iff ex rest loc).mp h
        refine ⟨a :: pre, post, by rw [hls, List.cons_append], hloc, ?_⟩
        intro x hx
        rcases List.mem_cons.mp hx with rfl | hx
        · exact Bool.not_eq_true _ ▸ ha
        · exact hpre x hx
    · rintro ⟨pre, post, hls, hloc, hpre⟩
      cases pre with
      | nil =>
        obtain ⟨rfl, rfl⟩ : a = loc ∧ rest = post := by
          injection hls with h1 h2; exact ⟨h1, h2⟩
        rw [findFirstExisting, if_pos hloc]
      | cons b pre =>
        have hab : a = b ∧ rest = pre ++ loc :: post := by
          injection hls with h1 h2; exact ⟨h1, h2⟩
        obtain ⟨rfl, hrest⟩ := hab
        have ha : ex a = false := hpre a (List.mem_cons_self a pre)
        rw [findFirstExisting, if_neg (by rw [ha]; exact Bool.false_ne_true)]
        exact (findFirstExisting_eq_some_iff ex rest loc).mpr
          ⟨pre, post, hrest, hloc, fun x hx => hpre x (List.mem_cons_of_mem _ hx)⟩

/-- The probing loop fails exactly when no candidate exists. -/
theorem findFirstExisting_eq_none_iff (ex : String → Bool) :
    ∀ ls : List String, findFirstExisting ex ls = none ↔ ∀ x ∈ ls, ex x = false
  | [] => by simp [findFirstExisting]
  | a :: rest => by
    by_cases ha : ex a = true
    · rw [findFirstExisting, if_pos ha]
      simp only [List.mem_cons]
      constructor
      · intro h; exact absurd h (by simp)
      · intro h
        have := h a (Or.inl rfl)
        rw [ha] at this
        exact absurd this (by decide)
    · rw [findFirstExisting, if_neg ha]
      rw [findFirstExisting_eq_none_iff ex rest]
      constructor
      · intro h x hx
        rcases List.mem_cons.mp hx with rfl | hx
        · exact Bool.not_eq_true _ ▸ ha
        · exact h x hx
      · intro h x hx
        exact h x (List.mem_cons_of_mem a hx)

/-- A relation matches the lookup: its kind is `AttachedFile` and the
attachment id occurs as a substring of its URL. -/
def MatchesAttachment (attachmentId : String) (r : Relation) : Prop :=
  r.rel = "AttachedFile" ∧ attachmentId.data <:+: r.url.data

/-- The Boolean condition of the scanning loop decides `MatchesAttachment`. -/
theorem matches_cond_iff (attachmentId : String) (r : Relation) :
    (r.rel == "AttachedFile" && pyIn attachmentId r.url) = true
      ↔ MatchesAttachment attachmentId r := by
  rw [Bool.and_eq_true, beq_iff_eq, pyIn_iff]
  exact Iff.rfl

/-- The scanning loop returns a relation exactly when it is the first
matching one. -/
theorem findAttachedRelation_eq_some_iff (attachmentId : String) :
    ∀ (rels : List Relation) (r : Relation),
      findAttachedRelation attachmentId rels = some r ↔
        MatchesAttachment attachmentId r ∧ ∃ pre post, rels = pre ++ r :: post ∧
          ∀ x ∈ pre, ¬ MatchesAttachment attachmentId x
  | [], r => by
    constructor
    · intro h; exact absurd h (by simp [findAttachedRelation])
    · rintro ⟨-, pre, post, hls, -⟩
      exact absurd hls (by simp)
  | a :: rest, r => by
    constructor
    · intro h
      by_cases ha : (a.rel == "AttachedFile" && pyIn attachmentId a.url) = true
      · rw [findAttachedRelation, if_pos ha] at h
        obtain rfl : a = r := by injection h
        exact ⟨(matches_cond_iff attachmentId a).mp ha, [], rest, rfl, by simp⟩
      · rw [findAttachedRelation, if_neg ha] at h
        obtain ⟨hm, pre, post, hls, hpre⟩ :=
          (findAttachedRelation_eq_some_iff attachmentId rest r).mp h
        refine ⟨hm, a :: pre, post, by rw [hls, List.cons_append], ?_⟩
        intro x hx
        rcases List.mem_cons.mp hx with rfl | hx
        · exact fun hmx => ha ((matches_cond_iff attachmentId x).mpr hmx)
        · exact hpre x hx
    · rintro ⟨hm, pre, post, hls, hpre⟩
      cases pre with
      | nil =>
        obtain ⟨rfl, rfl⟩ : a = r ∧ rest = post := by
          injection hls with h1 h2; exact ⟨h1, h2⟩
        rw [findAttachedRelation,
          if_pos ((matches_cond_iff attachmentId a).mpr hm)]
      | cons b pre =>
        have hab : a = b ∧ rest = pre ++ r :: post := by
          injection hls with h1 h2; exact ⟨h1, h2⟩
        obtain ⟨rfl, hrest⟩ := hab
        have ha : ¬ MatchesAttachment attachmentId a := hpre a (List.mem_cons_self a pre)
        rw [findAttachedRelation,
          if_neg (fun hc => ha ((matches_cond_iff attachmentId a).mp hc))]
        exact (findAttachedRelation_eq_some_iff attachmentId rest r).mpr
          ⟨hm, pre, post, hrest, fun x hx => hpre x (List.mem_cons_of_mem _ hx)⟩

/-- The scanning loop fails exactly when no relation matches. -/
theorem findAttachedRelation_eq_none_iff (attachmentId : String) :
    ∀ rels : List Relation, findAttachedRelation attachmentId rels = none ↔
      ∀ x ∈ rels, ¬ MatchesAttachment attachmentId x
  | [] => by simp [findAttachedRelation]
  | a :: rest => by
    by_cases ha : (a.rel == "AttachedFile" && pyIn attachmentId a.url) = true
    · rw [findAttachedRelation, if_pos ha]
      constructor
      · intro h; exact absurd h (by simp)
      · intro h
        exact absurd ((matches_cond_iff attachmentId a).mp ha)
          (h a (List.mem_cons_self a rest))
    · rw [findAttachedRelation, if_neg ha]
      rw [findAttachedRelation_eq_none_iff attachmentId rest]
      constructor
      · intro h x hx
        rcases List.mem_cons.mp hx with rfl | hx
        · exact fun hmx => ha ((matches_cond_iff attachmentId x).mpr hmx)
        · exact h x hx
      · intro h x hx
        exact h x (List.mem_cons_of_mem a hx)

/-- If some relation matches, the scanning loop finds one. -/
theorem findAttachedRelation_isSome_of_exists (attachmentId : String)
    (rels : List Relation)
    (h : ∃ r ∈ rels, (r.rel == "AttachedFile" && pyIn attachmentId r.url) = true) :
    ∃ r, findAttachedRelation attachmentId rels = some r := by
  cases hf : findAttachedRelation attachmentId rels with
  | some r => exact ⟨r, rfl⟩
  | none =>
    obtain ⟨r, hr, hc⟩ := h
    exact absurd ((matches_cond_iff attachmentId r).mp hc)
      ((findAttachedRelation_eq_none_iff attachmentId rels).mp hf r hr)

/-! ## Helper lemmas: implementation shapes -/

/-- Resolving an attachment succeeds when the scan finds a relation. -/
theorem getAttachmentInfo_ok (env : Env) (wid : Nat) (aid : String)
    (wi : WorkItem) (rels : List Relation) (r : Relation)
    (h1 : env.workItems wid = some wi) (h2 : wi.relations = some rels)
    (hfind : findAttachedRelation aid rels = some r) :
    getAttachmentInfo env wid aid =
      .ok { name := posixBasename (r.attributes.name.getD ""), url := r.url,
            attributes := r.attributes } := by
  have hne : rels.isEmpty = false := by
    cases rels with
    | nil => exact absurd hfind (by simp [findAttachedRelation])
    | cons a l => rfl
  simp [getAttachmentInfo, h1, h2, hne, hfind]

/-- Resolving an attachment on an item with no relations fails with the
no-attachments message. -/
theorem getAttachmentInfo_no_relations (env : Env) (wid : Nat) (aid : String)
    (wi : WorkItem) (h1 : env.workItems wid = some wi)
    (h2 : wi.relations = none ∨ wi.relations = some []) :
    getAttachmentInfo env wid aid =
      .error ("Error getting attachment information: "
        ++ ("No attachments found in work item " ++ toString wid)) := by
  rcases h2 with h2 | h2 <;> simp [getAttachmentInfo, h1, h2]

/-- A successful download saves to `/downloads` joined with the extracted
filename, and writes at that very path. -/
theorem downloadImpl_ok_shape (env : Env) (wid : Nat) (aid out : String)
    (res : DownloadResult) (fw : FileWrite)
    (h : downloadImpl env wid aid out = .ok (res, fw)) :
    res.savedTo = osPathJoin "/downloads" (extractFilename out) ∧
    fw.path = res.savedTo := by
  cases hg : getAttachmentInfo env wid aid with
  | error m => simp [downloadImpl, hg] at h
  | ok info =>
    simp only [downloadImpl, hg] at h
    obtain ⟨hres, hfw⟩ := Prod.mk.injEq .. ▸ Except.ok.injEq .. ▸ h
    rw [← hres, ← hfw]
    exact ⟨rfl, rfl⟩

/-- An upload picks `os.path.basename` of the original path as the default
attachment name. -/
theorem uploadImpl_ok_name (env : Env) (p : String) (cm : Option String)
    (up : UploadResult) (h : uploadImpl env p none cm = .ok up) :
    up.name = posixBasename p := by
  cases hl : locateContainerPath env.fsExists p with
  | error m => simp [uploadImpl, hl] at h
  | ok cp =>
    simp only [uploadImpl, hl] at h
    obtain rfl := Except.ok.injEq .. ▸ h
    rfl

/-- Splitting on an absent separator keeps the list whole. -/
theorem splitChar_of_not_mem (sep : Char) :
    ∀ l : List Char, sep ∉ l → splitChar sep l = [l]
  | [], _ => rfl
  | c :: rest, h => by
    have hrest : splitChar sep rest = [rest] :=
      splitChar_of_not_mem sep rest fun hm => h (List.mem_cons_of_mem c hm)
    have hc : ¬(c == sep) = true := by
      simp only [beq_iff_eq]
      intro hc; exact h (hc ▸ List.mem_cons_self c rest)
    rw [splitChar, hrest]
    simp [hc]

/-- The POSIX basename of a slash-free string is the string itself. -/
theorem posixBasename_of_no_slash (p : String) (h : '/' ∉ p.data) :
    posixBasename p = p := by
  unfold posixBasename
  rw [splitChar_of_not_mem '/' p.data h]
  exact String.ext rfl

/-- Generic reduction of `osPathJoin` to plain concatenation. -/
theorem osPathJoin_eq_append (a fn : String) (hfn : '/' ∉ fn.data)
    (ha : (a.data.isEmpty || (a.data.getLastD ' ') == '/') = false) :
    osPathJoin a fn = a ++ "/" ++ fn := by
  have h1 : pyStartsWith fn "/" = false := by
    unfold pyStartsWith
    rw [show ("/" : String).data = ['/'] from rfl]
    cases hfd : fn.data with
    | nil => rfl
    | cons c cs =>
      simp only [isPrefixOfB]
      have : ¬('/' == c) = true := by
        simp only [beq_iff_eq]
        intro hc; exact hfn (hfd ▸ (hc ▸ List.mem_cons_self c cs))
      simp [this]
  unfold osPathJoin
  rw [h1, ha]
  simp

/-- A string contains itself. -/
theorem ContainsStr_self (s : String) : ContainsStr s s :=
  ⟨"", "", String.ext (by simp [String.data_append])⟩

/-- Containment extends to the right of an append. -/
theorem ContainsStr_append_of_left (s t sub : String) (h : ContainsStr s sub) :
    ContainsStr (s ++ t) sub := by
  obtain ⟨u, v, rfl⟩ := h
  exact ⟨u, v ++ t, String.ext (by simp [String.data_append])⟩

/-- Containment extends to the left of an append. -/
theorem ContainsStr_append_of_right (s t sub : String) (h : ContainsStr t sub) :
    ContainsStr (s ++ t) sub := by
  obtain ⟨u, v, rfl⟩ := h
  exact ⟨s ++ u, v, String.ext (by simp [String.data_append])⟩

/-! ## Claim theorems -/

/-- C1: for every work item whose relation list contains an
`AttachedFile` relation matching the given attachment id, the download
operation writes to the resolved save path exactly the concatenation of
the byte chunks yielded by `get_attachment_content`, and the size it
reports equals the total number of bytes written, the sum of the chunk
lengths. -/
theorem download_writes_chunk_concatenation (env : Env) (wid : Nat)
    (aid out : String) (wi : WorkItem) (rels : List Relation)
    (h1 : env.workItems wid = some wi) (h2 : wi.relations = some rels)
    (h3 : ∃ r ∈ rels, (r.rel == "AttachedFile" && pyIn aid r.url) = true) :
    ∃ res fw, downloadImpl env wid aid out = .ok (res, fw) ∧
      fw.bytes = (env.attachmentContent aid).flatten ∧
      res.size = ((env.attachmentContent aid).map List.length).sum ∧
      res.size = fw.bytes.length ∧
      fw.path = res.savedTo := by
  obtain ⟨r, hfind⟩ := findAttachedRelation_isSome_of_exists aid rels h3
  have hinfo := getAttachmentInfo_ok env wid aid wi rels r h1 h2 hfind
  refine ⟨{ filename := posixBasename (r.attributes.name.getD ""),
            size := ((env.attachmentContent aid).map List.length).sum,
            contentType := r.attributes.contentType.getD "application/octet-stream",
            savedTo := osPathJoin "/downloads" (extractFilename out) },
          { path := osPathJoin "/downloads" (extractFilename out),
            bytes := (env.attachmentContent aid).flatten },
          ?_, rfl, rfl, (List.length_flatten _).symm, rfl⟩
  simp [downloadImpl, hinfo, writeChunksLoop_eq]

/-- The relation the C1 witness environment serves. -/
def relW1 : Relation :=
  { rel := "AttachedFile", url := "https://dev/att/abc123",
    attributes := { name := some "docs/doc.txt", contentType := some "text/plain",
                    comment := none } }

/-- The work item the C1 witness environment serves. -/
def wiW1 : WorkItem := { relations := some [relW1], rev := 3 }

/-- A concrete environment whose work item 7 carries a matching relation. -/
def envW1 : Env :=
  { workItems := fun i => if i == 7 then some wiW1 else none,
    attachmentContent := fun _ => [[1, 2, 3], [4, 5]],
    fsExists := fun _ => false,
    fsRead := fun _ => [],
    createAttachment := fun _ _ => { id := "id", url := "url" },
    mimeGuess := fun _ => none }

/-- Witness for C1 at a concrete environment. -/
theorem download_writes_chunk_concatenation_witness :
    envW1.workItems 7 = some wiW1 ∧ wiW1.relations = some [relW1] ∧
    (∃ r ∈ [relW1], (r.rel == "AttachedFile" && pyIn "abc123" r.url) = true) ∧
    (∃ res fw, downloadImpl envW1 7 "abc123" "out.bin" = .ok (res, fw) ∧
      fw.bytes = (envW1.attachmentContent "abc123").flatten ∧
      res.size = ((envW1.attachmentContent "abc123").map List.length).sum ∧
      res.size = fw.bytes.length ∧
      fw.path = res.savedTo) :=
  ⟨rfl, rfl, ⟨relW1, by decide, by decide⟩,
   download_writes_chunk_concatenation envW1 7 "abc123" "out.bin" wiW1 [relW1]
     rfl rfl ⟨relW1, by decide, by decide⟩⟩

/-- C9: attachment lookup matches relations by substring, not exact id: a
relation is selected iff its `rel` equals `"AttachedFile"` and the given
attachment id occurs anywhere as a substring of its `url`; when several
relations match, the first one in relation-list order is returned. -/
theorem lookup_matches_substring_first (attachmentId : String)
    (rels : List Relation) (r : Relation) :
    (findAttachedRelation attachmentId rels = some r ↔
       (r.rel = "AttachedFile" ∧ attachmentId.data <:+: r.url.data) ∧
       ∃ pre post, rels = pre ++ r :: post ∧
         ∀ x ∈ pre, ¬(x.rel = "AttachedFile" ∧ attachmentId.data <:+: x.url.data)) ∧
    (findAttachedRelation attachmentId rels = none ↔
       ∀ x ∈ rels, ¬(x.rel = "AttachedFile" ∧ attachmentId.data <:+: x.url.data)) :=
  ⟨findAttachedRelation_eq_some_iff attachmentId rels r,
   findAttachedRelation_eq_none_iff attachmentId rels⟩

/-- A relation of the wrong kind whose URL still contains the id. -/
def relW9a : Relation :=
  { rel := "Hyperlink", url := "https://dev/att/abc123",
    attributes := { name := none, contentType := none, comment := none } }

/-- The first matching relation of the C9 witness list. -/
def relW9b : Relation :=
  { rel := "AttachedFile", url := "https://dev/x-abc123-y",
    attributes := { name := some "b.txt", contentType := none, comment := none } }

/-- A later matching relation the scan must not pick. -/
def relW9c : Relation :=
  { rel := "AttachedFile", url := "https://dev/att/abc123",
    attributes := { name := some "c.txt", contentType := none, comment := none } }

/-- Witness for C9: the scan picks the first matching relation even though
the id is only a proper substring of its URL. -/
theorem lookup_matches_substring_first_witness :
    findAttachedRelation "abc123" [relW9a, relW9b, relW9c] = some relW9b :=
  ((lookup_matches_substring_first "abc123" [relW9a, relW9b, relW9c] relW9b).1).mpr
    ⟨⟨rfl, by decide⟩, [relW9a], [relW9c], rfl, by decide⟩

/-- C5: for every work item whose relation list is empty or absent, the
download operation fails and the returned error text contains the
no-attachments-found condition for the given work item id. -/
theorem download_no_relations_error (env : Env) (wid : Nat) (aid out : String)
    (wi : WorkItem) (h1 : env.workItems wid = some wi)
    (h2 : wi.relations = none ∨ wi.relations = some []) :
    ∃ m, downloadImpl env wid aid out = .error m ∧
      ContainsStr m ("No attachments found in work item " ++ toString wid) := by
  have hinfo := getAttachmentInfo_no_relations env wid aid wi h1 h2
  refine ⟨"Error downloading attachment " ++ aid ++ " from work item "
      ++ toString wid ++ ": "
      ++ ("Error getting attachment information: "
        ++ ("No attachments found in work item " ++ toString wid)), ?_, ?_⟩
  · simp [downloadImpl, hinfo]
  · exact ContainsStr_append_of_right _ _ _
      (ContainsStr_append_of_right _ _ _ (ContainsStr_self _))

/-- The work item of the C5 witness: no relation list at all. -/
def wiW5 : WorkItem := { relations := none, rev := 0 }

/-- A concrete environment whose work item 1 has no relations. -/
def envW5 : Env :=
  { workItems := fun i => if i == 1 then some wiW5 else none,
    attachmentContent := fun _ => [],
    fsExists := fun _ => false,
    fsRead := fun _ => [],
    createAttachment := fun _ _ => { id := "", url := "" },
    mimeGuess := fun _ => none }

/-- Witness for C5 at a concrete environment. -/
theorem download_no_relations_error_witness :
    envW5.workItems 1 = some wiW5 ∧
    (wiW5.relations = none ∨ wiW5.relations = some []) ∧
    (∃ m, downloadImpl envW5 1 "a1" "f.txt" = .error m ∧
      ContainsStr m ("No attachments found in work item " ++ toString 1)) :=
  ⟨rfl, Or.inl rfl,
   download_no_relations_error envW5 1 "a1" "f.txt" wiW5 rfl (Or.inl rfl)⟩

/-- C6: a successful download saves inside the fixed `/downloads`
directory: the resolved save path is `/downloads` joined with the filename
component extracted from the output path, and that component carries no
directory separators; directory components of the output path do not
change the component. -/
theorem download_saves_into_downloads (env : Env) (wid : Nat) (aid out : String)
    (res : DownloadResult) (fw : FileWrite)
    (h : downloadImpl env wid aid out = .ok (res, fw)) :
    res.savedTo = "/downloads/" ++ filenameComponent out ∧
    fw.path = res.savedTo ∧
    '/' ∉ (filenameComponent out).data ∧
    '\\' ∉ (filenameComponent out).data ∧
    (∀ a b : String, filenameComponent (a ++ "/" ++ b) = filenameComponent b) := by
  obtain ⟨hsaved, hpath⟩ := downloadImpl_ok_shape env wid aid out res fw h
  refine ⟨?_, hpath, filenameComponent_no_slash out,
    filenameComponent_no_backslash out, filenameComponent_append⟩
  rw [hsaved, extractFilename_eq,
    osPathJoin_eq_append "/downloads" (filenameComponent out)
      (filenameComponent_no_slash out) (by decide)]
  rw [show ("/downloads" : String) ++ "/" = "/downloads/" from rfl]

/-- Witness for C6: a Windows-style output path is flattened into
`/downloads`. -/
theorem download_saves_into_downloads_witness :
    downloadImpl envW1 7 "abc123" "C:\\dir\\f.txt" =
      .ok ({ filename := "doc.txt",
             size := 5,
             contentType := "text/plain",
             savedTo := "/downloads/f.txt" },
           { path := "/downloads/f.txt", bytes := [1, 2, 3, 4, 5] }) ∧
    ("/downloads/f.txt" : String)
      = "/downloads/" ++ filenameComponent "C:\\dir\\f.txt" ∧
    ("/downloads/f.txt" : String) = "/downloads/f.txt" ∧
    '/' ∉ (filenameComponent "C:\\dir\\f.txt").data ∧
    '\\' ∉ (filenameComponent "C:\\dir\\f.txt").data ∧
    (∀ a b : String, filenameComponent (a ++ "/" ++ b) = filenameComponent b) := by
  have h : downloadImpl envW1 7 "abc123" "C:\\dir\\f.txt" =
      .ok ({ filename := "doc.txt", size := 5, contentType := "text/plain",
             savedTo := "/downloads/f.txt" },
           { path := "/downloads/f.txt", bytes := [1, 2, 3, 4, 5] }) := by decide
  obtain ⟨h1, h2, h3, h4, h5⟩ := download_saves_into_downloads envW1 7 "abc123"
    "C:\\dir\\f.txt" _ _ h
  exact ⟨h, h1, h2, h3, h4, h5⟩

/-- C4: every failing tool invocation is caught at the outermost call and
the tool returns a result text prefixed with the error marker instead of
propagating the failure. -/
theorem tool_errors_are_prefixed (env : Env) (wid : Nat) (aid out fp : String)
    (fn cm : Option String) (m : String) :
    (downloadImpl env wid aid out = .error m →
       downloadTool env wid aid out = "Error: " ++ m) ∧
    (uploadImpl env fp fn cm = .error m →
       uploadTool env wid fp fn cm = "Error: " ++ m) ∧
    (∀ up, uploadImpl env fp fn cm = .ok up →
       attachFileImpl env wid up.url up.name cm = .error m →
       uploadTool env wid fp fn cm = "Error: " ++ m) := by
  refine ⟨?_, ?_, ?_⟩
  · intro h; simp [downloadTool, h]
  · intro h; simp [uploadTool, h]
  · intro up h1 h2; simp [uploadTool, h1, h2]

/-- An environment whose filesystem has every path but whose tracking
service knows no work item: uploads succeed, attaching fails. -/
def envW4 : Env :=
  { workItems := fun _ => none,
    attachmentContent := fun _ => [],
    fsExists := fun _ => true,
    fsRead := fun _ => [9],
    createAttachment := fun _ _ => { id := "5", url := "https://dev/att/5" },
    mimeGuess := fun _ => none }

/-- The upload result envW4 produces for `f.txt`. -/
def upW4 : UploadResult :=
  { id := "5", url := "https://dev/att/5", name := "f.txt", size := 1,
    contentType := "application/octet-stream", originalPath := "f.txt",
    containerPath := "/downloads/f.txt", comment := none }

/-- Witness for C4: a failing download, a failing upload and a failing
attach each surface as an error-prefixed result text. -/
theorem tool_errors_are_prefixed_witness :
    downloadTool envW5 1 "a1" "f.txt"
      = "Error: " ++ ("Error downloading attachment a1 from work item 1: "
        ++ "Error getting attachment information: "
        ++ "No attachments found in work item 1") ∧
    uploadTool envW5 1 "f.txt" none none
      = "Error: " ++ ("Error uploading attachment f.txt: File not found: f.txt. "
        ++ "Please ensure the file is available in the container in one of "
        ++ "these directories: /downloads, /uploads, or /tmp.") ∧
    uploadTool envW4 1 "f.txt" none none
      = "Error: " ++ ("Error attaching file to work item 1: Work item 1 not found") :=
  ⟨(tool_errors_are_prefixed envW5 1 "a1" "f.txt" "f.txt" none none _).1 (by decide),
   (tool_errors_are_prefixed envW5 1 "a1" "f.txt" "f.txt" none none _).2.1 (by decide),
   (tool_errors_are_prefixed envW4 1 "a1" "f.txt" "f.txt" none none _).2.2 upW4
     (by decide) (by decide)⟩

/-- C7: for an upload path given as a bare filename, the locator probes
`/downloads`, `/uploads`, `/tmp` in order and resolves to the first
directory that holds the file; in particular, when the file exists in
exactly one of the three, it resolves to that directory file. -/
theorem bare_filename_resolves_to_directory (ex : String → Bool) (p : String)
    (hwin : isWindowsPath p = false) (hslash : '/' ∉ p.data) :
    (ex ("/downloads/" ++ p) = true →
       locateContainerPath ex p = .ok ("/downloads/" ++ p)) ∧
    (ex ("/downloads/" ++ p) = false → ex ("/uploads/" ++ p) = true →
       locateContainerPath ex p = .ok ("/uploads/" ++ p)) ∧
    (ex ("/downloads/" ++ p) = false → ex ("/uploads/" ++ p) = false →
       ex ("/tmp/" ++ p) = true →
       locateContainerPath ex p = .ok ("/tmp/" ++ p)) := by
  have hstart : pyStartsWith p "/" = false := by
    unfold pyStartsWith
    rw [show ("/" : String).data = ['/'] from rfl]
    cases hfd : p.data with
    | nil => rfl
    | cons c cs =>
      simp only [isPrefixOfB]
      have : ¬('/' == c) = true := by
        simp only [beq_iff_eq]
        intro hc; exact hslash (hfd ▸ (hc ▸ List.mem_cons_self c cs))
      simp [this]
  have hj1 : osPathJoin "/downloads" p = "/downloads/" ++ p := by
    rw [osPathJoin_eq_append "/downloads" p hslash (by decide)]
    rw [show ("/downloads" : String) ++ "/" = "/downloads/" from rfl]
  have hj2 : osPathJoin "/uploads" p = "/uploads/" ++ p := by
    rw [osPathJoin_eq_append "/uploads" p hslash (by decide)]
    rw [show ("/uploads" : String) ++ "/" = "/uploads/" from rfl]
  have hj3 : osPathJoin "/tmp" p = "/tmp/" ++ p := by
    rw [osPathJoin_eq_append "/tmp" p hslash (by decide)]
    rw [show ("/tmp" : String) ++ "/" = "/tmp/" from rfl]
  refine ⟨?_, ?_, ?_⟩
  · intro h1
    simp [locateContainerPath, hwin, hstart, relCandidates,
      findFirstExisting, hj1, h1]
  · intro h1 h2
    simp [locateContainerPath, hwin, hstart, relCandidates,
      findFirstExisting, hj1, hj2, h1, h2]
  · intro h1 h2 h3
    simp [locateContainerPath, hwin, hstart, relCandidates,
      findFirstExisting, hj1, hj2, hj3, h1, h2, h3]

/-- The existence oracle of the C7 witness: only `/uploads/f.txt` exists. -/
def exW7 : String → Bool := fun s => s == "/uploads/f.txt"

/-- Witness for C7: a bare filename present only under `/uploads` resolves
there. -/
theorem bare_filename_resolves_to_directory_witness :
    isWindowsPath "f.txt" = false ∧ '/' ∉ ("f.txt" : String).data ∧
    exW7 ("/downloads/" ++ "f.txt") = false ∧
    exW7 ("/uploads/" ++ "f.txt") = true ∧
    locateContainerPath exW7 "f.txt" = .ok ("/uploads/" ++ "f.txt") :=
  ⟨by decide, by decide, by decide, by decide,
   (bare_filename_resolves_to_directory exW7 "f.txt" (by decide) (by decide)).2.1
     (by decide) (by decide)⟩

/-- C8: a successful attach issues a patch document consisting of exactly
one add operation of an `AttachedFile` relation pointing at the
attachment, the updated work item relation list is the old one extended
by that relation, and the returned result carries the updated work
item new revision number. -/
theorem attach_adds_relation_and_returns_rev (env : Env) (wid : Nat)
    (aid nm : String) (cm : Option String) (wi : WorkItem)
    (h : env.workItems wid = some wi) :
    ∃ res updated, attachFileImpl env wid aid nm cm = .ok (res, updated) ∧
      (mkPatchDocument aid nm cm).length = 1 ∧
      (∀ op ∈ mkPatchDocument aid nm cm,
         op.op = "add" ∧ op.path = "/relations/-" ∧
         op.value.rel = "AttachedFile" ∧ op.value.url = aid) ∧
      updated.relations = some ((wi.relations.getD []) ++
        [{ rel := "AttachedFile", url := aid,
           attributes := { name := some nm, contentType := none,
                           comment := some (if strTruthy cm then cm.getD "" else "") } }]) ∧
      updated.rev = wi.rev + 1 ∧
      res.updatedWorkItemRev = updated.rev := by
  refine ⟨{ workItemId := wid, attachmentId := aid, attachmentName := nm,
            comment := if strTruthy cm then cm.getD "" else "",
            updatedWorkItemRev := wi.rev + 1 },
          { relations := some ((wi.relations.getD []) ++
              [{ rel := "AttachedFile", url := aid,
                 attributes := { name := some nm, contentType := none,
                                 comment := some (if strTruthy cm then cm.getD "" else "") } }]),
            rev := wi.rev + 1 },
          ?_, rfl, ?_, rfl, rfl, rfl⟩
  · simp [attachFileImpl, h, updateWorkItem, mkPatchDocument, applyPatchOp]
  · intro op hop
    rw [mkPatchDocument, List.mem_singleton] at hop
    subst hop
    exact ⟨rfl, rfl, rfl, rfl⟩

/-- Witness for C8 at a concrete environment: work item 7 of `envW1`. -/
theorem attach_adds_relation_and_returns_rev_witness :
    envW1.workItems 7 = some wiW1 ∧
    (∃ res updated,
      attachFileImpl envW1 7 "https://dev/att/9" "n.txt" none = .ok (res, updated) ∧
      (mkPatchDocument "https://dev/att/9" "n.txt" none).length = 1 ∧
      (∀ op ∈ mkPatchDocument "https://dev/att/9" "n.txt" none,
         op.op = "add" ∧ op.path = "/relations/-" ∧
         op.value.rel = "AttachedFile" ∧ op.value.url = "https://dev/att/9") ∧
      updated.relations = some ((wiW1.relations.getD []) ++
        [{ rel := "AttachedFile", url := "https://dev/att/9",
           attributes := { name := some "n.txt", contentType := none,
                           comment := some (if strTruthy none then (none : Option String).getD "" else "") } }]) ∧
      updated.rev = wiW1.rev + 1 ∧
      res.updatedWorkItemRev = updated.rev) :=
  ⟨rfl, attach_adds_relation_and_returns_rev envW1 7 "https://dev/att/9" "n.txt"
    none wiW1 rfl⟩

/-- The existence oracle of the C2 counterexample: only the user-supplied
absolute path itself exists. -/
def exC2 : String → Bool := fun s => s == "/data/f.txt"

/-- C2 counterexample: for the absolute POSIX path `/data/f.txt` none of
the three candidate directories holds the file, yet the locator succeeds
with the path itself instead of failing with a not-found error. -/
theorem locator_probes_only_counterexample :
    absCandidates "/data/f.txt"
      = ["/downloads/f.txt", "/uploads/f.txt", "/tmp/f.txt"] ∧
    exC2 "/downloads/f.txt" = false ∧
    exC2 "/uploads/f.txt" = false ∧
    exC2 "/tmp/f.txt" = false ∧
    locateContainerPath exC2 "/data/f.txt" = .ok "/data/f.txt" := by decide

/-- C2 amended: the locator behavior depends on the path form. A
Windows-style path probes the three directories joined with the extracted
filename, first hit wins, not-found otherwise. An absolute POSIX path is
returned as-is when it exists; otherwise, outside the known prefixes, the
three directories are probed with the basename, while under a known
prefix the locator fails immediately. A relative path probes the three
directories joined with the whole path and finally the path as-is. -/
theorem locator_branch_behavior (ex : String → Bool) (p : String) :
    (isWindowsPath p = true →
       (∀ loc, FirstHit ex (winCandidates p) loc →
          locateContainerPath ex p = .ok loc) ∧
       ((∀ loc ∈ winCandidates p, ex loc = false) →
          locateContainerPath ex p = .error (notFoundMsg p))) ∧
    (isWindowsPath p = false → pyStartsWith p "/" = true →
       (ex p = true → locateContainerPath ex p = .ok p) ∧
       (ex p = false → startsWithKnownPrefix p = false →
          (∀ loc, FirstHit ex (absCandidates p) loc →
             locateContainerPath ex p = .ok loc) ∧
          ((∀ loc ∈ absCandidates p, ex loc = false) →
             locateContainerPath ex p = .error (notFoundMsg p))) ∧
       (ex p = false → startsWithKnownPrefix p = true →
          locateContainerPath ex p = .error ("File not found: " ++ p))) ∧
    (isWindowsPath p = false → pyStartsWith p "/" = false →
       (∀ loc, FirstHit ex (relCandidates p) loc →
          locateContainerPath ex p = .ok loc) ∧
       ((∀ loc ∈ relCandidates p, ex loc = false) →
          locateContainerPath ex p = .error (notFoundMsg p))) := by
  refine ⟨fun hwin => ⟨?_, ?_⟩, fun hwin habs => ⟨fun hex => ?_, fun hex hpre => ⟨?_, ?_⟩, fun hex hpre => ?_⟩, fun hwin habs => ⟨?_, ?_⟩⟩
  · intro loc hloc
    have hf := (findFirstExisting_eq_some_iff ex (winCandidates p) loc).mpr hloc
    simp [locateContainerPath, hwin, hf]
  · intro hall
    have hf := (findFirstExisting_eq_none_iff ex (winCandidates p)).mpr hall
    simp [locateContainerPath, hwin, hf]
  · simp [locateContainerPath, hwin, habs, hex]
  · intro loc hloc
    have hf := (findFirstExisting_eq_some_iff ex (absCandidates p) loc).mpr hloc
    simp [locateContainerPath, hwin, habs, hex, hpre, hf]
  · intro hall
    have hf := (findFirstExisting_eq_none_iff ex (absCandidates p)).mpr hall
    simp [locateContainerPath, hwin, habs, hex, hpre, hf]
  · simp [locateContainerPath, hwin, habs, hex, hpre]
  · intro loc hloc
    have hf := (findFirstExisting_eq_some_iff ex (relCandidates p) loc).mpr hloc
    simp [locateContainerPath, hwin, habs, hf]
  · intro hall
    have hf := (findFirstExisting_eq_none_iff ex (relCandidates p)).mpr hall
    simp [locateContainerPath, hwin, habs, hf]

/-- The existence oracle of the C2 witness: only `/tmp/f.txt` exists. -/
def exW2 : String → Bool := fun s => s == "/tmp/f.txt"

/-- Witness for the amended C2: a relative path found third in the probe
order resolves to `/tmp`. -/
theorem locator_branch_behavior_witness :
    isWindowsPath "f.txt" = false ∧
    pyStartsWith "f.txt" "/" = false ∧
    FirstHit exW2 (relCandidates "f.txt") "/tmp/f.txt" ∧
    locateContainerPath exW2 "f.txt" = .ok "/tmp/f.txt" := by
  have hfirst : FirstHit exW2 (relCandidates "f.txt") "/tmp/f.txt" :=
    ⟨["/downloads/f.txt", "/uploads/f.txt"], ["f.txt"], by decide, by decide, by decide⟩
  exact ⟨by decide, by decide, hfirst,
    ((locator_branch_behavior exW2 "f.txt").2.2 (by decide) (by decide)).1
      "/tmp/f.txt" hfirst⟩

/-- An environment with an empty filesystem and an empty tracking
service. -/
def envNoFs : Env :=
  { workItems := fun _ => none,
    attachmentContent := fun _ => [],
    fsExists := fun _ => false,
    fsRead := fun _ => [],
    createAttachment := fun _ _ => { id := "", url := "" },
    mimeGuess := fun _ => none }

/-- C3 counterexample: for the missing path `/downloads/missing.txt` the
upload fails, but the error message does not list the searched
directories: it never mentions `/uploads` or `/tmp`. -/
theorem upload_not_found_message_counterexample :
    uploadImpl envNoFs "/downloads/missing.txt" none none =
      .error ("Error uploading attachment /downloads/missing.txt: "
        ++ "File not found: /downloads/missing.txt") ∧
    ¬ ContainsStr ("Error uploading attachment /downloads/missing.txt: "
        ++ "File not found: /downloads/missing.txt") "/uploads" ∧
    ¬ ContainsStr ("Error uploading attachment /downloads/missing.txt: "
        ++ "File not found: /downloads/missing.txt") "/tmp" := by
  refine ⟨by decide, fun h => ?_, fun h => ?_⟩
  · exact absurd ((isInfixOfB_iff _ _).mpr ((ContainsStr_iff _ _).mp h)) (by decide)
  · exact absurd ((isInfixOfB_iff _ _).mpr ((ContainsStr_iff _ _).mp h)) (by decide)

/-- C3 amended: whenever the file locator fails, the upload fails with a
wrapped message containing the file-not-found condition for the path; the
message is the directory-listing message except for an absolute path
already under `/downloads/`, `/uploads/` or `/tmp/` that does not exist,
in which case it names only the path; the directory-listing message does
list `/downloads`, `/uploads` and `/tmp`. -/
theorem upload_locator_failure_message (env : Env) (p : String)
    (fn cm : Option String) (m0 : String)
    (h : locateContainerPath env.fsExists p = .error m0) :
    uploadImpl env p fn cm =
      .error ("Error uploading attachment " ++ p ++ ": " ++ m0) ∧
    ContainsStr m0 ("File not found: " ++ p) ∧
    (m0 = notFoundMsg p ∨
       (m0 = "File not found: " ++ p ∧ startsWithKnownPrefix p = true ∧
        env.fsExists p = false ∧ isWindowsPath p = false ∧
        pyStartsWith p "/" = true)) ∧
    (ContainsStr (notFoundMsg p) "/downloads" ∧
     ContainsStr (notFoundMsg p) "/uploads" ∧
     ContainsStr (notFoundMsg p) "/tmp") := by
  have hcases : m0 = notFoundMsg p ∨
      (m0 = "File not found: " ++ p ∧ startsWithKnownPrefix p = true ∧
       env.fsExists p = false ∧ isWindowsPath p = false ∧
       pyStartsWith p "/" = true) := by
    by_cases hwin : isWindowsPath p = true
    · rw [locateContainerPath, if_pos hwin] at h
      cases hf : findFirstExisting env.fsExists (winCandidates p) with
      | some loc => rw [hf] at h; exact absurd h (by simp)
      | none =>
        rw [hf] at h
        exact Or.inl (by injection h with h'; exact h'.symm)
    · rw [locateContainerPath, if_neg hwin] at h
      by_cases habs : pyStartsWith p "/" = true
      · rw [if_pos habs] at h
        by_cases hex : env.fsExists p = true
        · rw [if_pos hex] at h; exact absurd h (by simp)
        · rw [if_neg hex] at h
          by_cases hpre : startsWithKnownPrefix p = true
          · rw [if_neg (by simp [hpre])] at h
            refine Or.inr ⟨by injection h with h'; exact h'.symm, hpre,
              Bool.not_eq_true _ ▸ hex, Bool.not_eq_true _ ▸ hwin, habs⟩
          · rw [if_pos (by simp [Bool.not_eq_true _ ▸ hpre])] at h
            cases hf : findFirstExisting env.fsExists (absCandidates p) with
            | some loc => rw [hf] at h; exact absurd h (by simp)
            | none =>
              rw [hf] at h
              exact Or.inl (by injection h with h'; exact h'.symm)
      · rw [if_neg habs] at h
        cases hf : findFirstExisting env.fsExists (relCandidates p) with
        | some loc => rw [hf] at h; exact absurd h (by simp)
        | none =>
          rw [hf] at h
          exact Or.inl (by injection h with h'; exact h'.symm)
  refine ⟨by simp [uploadImpl, h], ?_, hcases, ?_, ?_, ?_⟩
  · rcases hcases with rfl | ⟨rfl, -⟩
    · exact ContainsStr_append_of_left _ _ _
        (ContainsStr_append_of_left _ _ _ (ContainsStr_self _))
    · exact ContainsStr_self _
  · exact ContainsStr_append_of_right _ _ _
      ⟨"container in one of these directories: ", ", /uploads, or /tmp.", by decide⟩
  · exact ContainsStr_append_of_right _ _ _
      ⟨"container in one of these directories: /downloads, ", ", or /tmp.", by decide⟩
  · exact ContainsStr_append_of_right _ _ _
      ⟨"container in one of these directories: /downloads, /uploads, or ",
       ".", by decide⟩

/-- Witness for the amended C3 at a concrete failing relative path. -/
theorem upload_locator_failure_message_witness :
    locateContainerPath envNoFs.fsExists "f.txt" = .error (notFoundMsg "f.txt") ∧
    (uploadImpl envNoFs "f.txt" none none =
      .error ("Error uploading attachment " ++ "f.txt" ++ ": " ++ notFoundMsg "f.txt") ∧
    ContainsStr (notFoundMsg "f.txt") ("File not found: " ++ "f.txt") ∧
    (notFoundMsg "f.txt" = notFoundMsg "f.txt" ∨
       (notFoundMsg "f.txt" = "File not found: " ++ "f.txt" ∧
        startsWithKnownPrefix "f.txt" = true ∧
        envNoFs.fsExists "f.txt" = false ∧ isWindowsPath "f.txt" = false ∧
        pyStartsWith "f.txt" "/" = true)) ∧
    (ContainsStr (notFoundMsg "f.txt") "/downloads" ∧
     ContainsStr (notFoundMsg "f.txt") "/uploads" ∧
     ContainsStr (notFoundMsg "f.txt") "/tmp")) :=
  ⟨by decide,
   upload_locator_failure_message envNoFs "f.txt" none none (notFoundMsg "f.txt")
     (by decide)⟩

/-- The environment of the C10 counterexample: `/downloads/c` exists. -/
def envW10 : Env :=
  { workItems := fun _ => none,
    attachmentContent := fun _ => [],
    fsExists := fun s => s == "/downloads/c",
    fsRead := fun _ => [7, 8],
    createAttachment := fun _ _ => { id := "9", url := "https://dev/att/9" },
    mimeGuess := fun _ => none }

/-- C10 counterexample: a Windows-style path that also contains a forward
slash; the default attachment name is the POSIX basename `"c"`, not the
entire path string. -/
theorem upload_default_name_counterexample :
    isWindowsPath "a\\b/c" = true ∧
    uploadImpl envW10 "a\\b/c" none none = .ok
      { id := "9", url := "https://dev/att/9", name := "c", size := 2,
        contentType := "application/octet-stream", originalPath := "a\\b/c",
        containerPath := "/downloads/c", comment := none } ∧
    ("c" : String) ≠ "a\\b/c" := by decide

/-- C10 amended: when the optional file name is omitted, the attachment
name is `os.path.basename` of the original user-supplied path, not of the
resolved container path; in particular, for a Windows-style path that
contains backslashes and no forward slash, the name is the entire path
string, since backslash is not a POSIX path separator. -/
theorem upload_default_name_is_posix_basename (env : Env) (p : String)
    (cm : Option String) (up : UploadResult)
    (h : uploadImpl env p none cm = .ok up) :
    up.name = posixBasename p ∧ ('/' ∉ p.data → up.name = p) := by
  have hname := uploadImpl_ok_name env p cm up h
  exact ⟨hname, fun hs => by rw [hname, posixBasename_of_no_slash p hs]⟩

/-- The environment of the C10 witness: `/downloads/f.txt` exists. -/
def envW10b : Env :=
  { workItems := fun _ => none,
    attachmentContent := fun _ => [],
    fsExists := fun s => s == "/downloads/f.txt",
    fsRead := fun _ => [7, 8],
    createAttachment := fun _ _ => { id := "9", url := "https://dev/att/9" },
    mimeGuess := fun _ => none }

/-- Witness for the amended C10: for a slash-free Windows path the default
name is the entire original path, not the container basename. -/
theorem upload_default_name_is_posix_basename_witness :
    uploadImpl envW10b "C:\\dir\\f.txt" none none = .ok
      { id := "9", url := "https://dev/att/9", name := "C:\\dir\\f.txt", size := 2,
        contentType := "application/octet-stream", originalPath := "C:\\dir\\f.txt",
        containerPath := "/downloads/f.txt", comment := none } ∧
    (UploadResult.name
      { id := "9", url := "https://dev/att/9", name := "C:\\dir\\f.txt", size := 2,
        contentType := "application/octet-stream", originalPath := "C:\\dir\\f.txt",
        containerPath := "/downloads/f.txt", comment := none }
      = posixBasename "C:\\dir\\f.txt" ∧
     ('/' ∉ ("C:\\dir\\f.txt" : String).data →
        UploadResult.name
          { id := "9", url := "https://dev/att/9", name := "C:\\dir\\f.txt", size := 2,
            contentType := "application/octet-stream",
            originalPath := "C:\\dir\\f.txt",
            containerPath := "/downloads/f.txt", comment := none }
          = "C:\\dir\\f.txt")) :=
  ⟨by decide,
   upload_default_name_is_posix_basename envW10b "C:\\dir\\f.txt" none _
     (by decide)⟩

end Attachments
